import Mathlib

/-!
Verification of the `t.sim.flood.py` front end of the itzi flood simulator.

The Python source is shallowly embedded below.  Instants and durations
(Python `datetime` / `timedelta`) are represented as integers: `timedelta`
holds an exact integer number of microseconds, and every duration built here
is a whole number of seconds, so `Int` seconds is an exact model.  Instants
are seconds since 0001-01-01 00:00 (`datetime.min`), the proleptic Gregorian
calendar used by `datetime`.  External collaborators (GRASS map existence,
`format_id`, `float` parsing, the solver) are passed in as explicit function
parameters, mirroring their call sites in the source.
-/

namespace Itzi

/-- Python truthiness of an option string: the empty string is falsy. -/
def truthy (s : String) : Bool := !(s == "")

/-- Python `str.split(sep)` for a one-character separator, on `List Char`:
splits at every occurrence, keeping empty fields, and returns at least one
(possibly empty) field. -/
def splitOnChar (c : Char) : List Char → List (List Char)
  | [] => [[]]
  | x :: xs =>
    match splitOnChar c xs with
    | [] => [[x]]
    | h :: t => if x = c then [] :: h :: t else (x :: h) :: t

/-- All characters are decimal digits. -/
def allDigits (l : List Char) : Bool := l.all (fun c => decide ('0' ≤ c) && decide (c ≤ '9'))

/-- Numeric value of a list of decimal digit characters. -/
def digitsVal (l : List Char) : Nat := l.foldl (fun a c => a * 10 + (c.toNat - 48)) 0

/-- Python 2 `int(string)`: optional surrounding whitespace, optional sign,
then a nonempty run of decimal digits; anything else raises `ValueError`,
modelled as `none`. -/
def pyIntChars (l : List Char) : Option Int :=
  let l1 := ((l.dropWhile Char.isWhitespace).reverse.dropWhile Char.isWhitespace).reverse
  match l1 with
  | '-' :: ds => if ds ≠ [] && allDigits ds then some (-(digitsVal ds : Int)) else none
  | '+' :: ds => if ds ≠ [] && allDigits ds then some ((digitsVal ds : Int)) else none
  | ds => if ds ≠ [] && allDigits ds then some ((digitsVal ds : Int)) else none

/-- `str_to_timedelta` (t.sim.flood.py lines 307-322): split the string on
`:`, convert the first three fields with `int`, reject negative hours and
minutes/seconds outside `[0, 59]`, and return the duration in seconds.  Any
raised exception (missing field, unparseable field, range violation) is
`none`.  Fields after the third are read but never used, exactly as
`data[0]`, `data[1]`, `data[2]` in the source. -/
def strToTimedelta (s : String) : Option Int :=
  let data := splitOnChar ':' s.data
  match data[0]?, data[1]?, data[2]? with
  | some f0, some f1, some f2 =>
    match pyIntChars f0, pyIntChars f1, pyIntChars f2 with
    | some hours, some minutes, some seconds =>
      if hours < 0 then none
      else if ¬(0 ≤ minutes ∧ minutes ≤ 59) ∨ ¬(0 ≤ seconds ∧ seconds ≤ 59) then none
      else some (hours * 3600 + minutes * 60 + seconds)
    | _, _, _ => none
  | _, _, _ => none

/-- Gregorian leap year, as `calendar.isleap` / `datetime`. -/
def isLeap (y : Nat) : Bool := y % 4 == 0 && (y % 100 != 0 || y % 400 == 0)

/-- Days in a month of the proleptic Gregorian calendar. -/
def daysInMonth (y m : Nat) : Nat :=
  match m with
  | 1 => 31 | 2 => if isLeap y then 29 else 28 | 3 => 31 | 4 => 30
  | 5 => 31 | 6 => 30 | 7 => 31 | 8 => 31
  | 9 => 30 | 10 => 31 | 11 => 30 | 12 => 31
  | _ => 0

/-- Days in the proleptic Gregorian calendar strictly before year `y`. -/
def daysBeforeYear (y : Nat) : Nat :=
  365 * (y - 1) + (y - 1) / 4 - (y - 1) / 100 + (y - 1) / 400

/-- Days of year `y` strictly before month `m`. -/
def daysBeforeMonth (y m : Nat) : Nat :=
  (List.range (m - 1)).foldl (fun a i => a + daysInMonth y (i + 1)) 0

/-- A calendar field of at most `maxLen` digits, as matched by `strptime`
directives (`%Y`: up to 4 digits, `%m`/`%d`/`%H`/`%M`: up to 2). -/
def parseField (maxLen : Nat) (l : List Char) : Option Nat :=
  if l ≠ [] && l.length ≤ maxLen && allDigits l then some (digitsVal l) else none

/-- Python `datetime.strptime(s, "%Y-%m-%d %H:%M")`: the whole string must
match the format, each numeric directive takes 1-2 digits (1-4 for the
year), and `datetime` range checks apply (year 1-9999, month 1-12, day
within the month, hour 0-23, minute 0-59).  The result is the instant in
seconds since 0001-01-01 00:00; failure (`ValueError`) is `none`. -/
def strptime (s : String) : Option Int :=
  match splitOnChar ' ' s.data with
  | [datePart, timePart] =>
    match splitOnChar '-' datePart, splitOnChar ':' timePart with
    | [ys, ms, ds], [hs, mins] => do
      let y ← parseField 4 ys
      let mo ← parseField 2 ms
      let d ← parseField 2 ds
      let h ← parseField 2 hs
      let mi ← parseField 2 mins
      if 1 ≤ y ∧ y ≤ 9999 ∧ 1 ≤ mo ∧ mo ≤ 12 ∧ 1 ≤ d ∧ d ≤ daysInMonth y mo
          ∧ h ≤ 23 ∧ mi ≤ 59 then
        some (((daysBeforeYear y + daysBeforeMonth y mo + (d - 1)) * 86400
                + h * 3600 + mi * 60 : Nat) : Int)
      else none
    | _, _ => none
  | _ => none

/-- `datetime.min` = 0001-01-01 00:00, the origin of our timestamp scale. -/
def datetimeMin : Int := 0

/-- The CLI options consumed by `main` (t.sim.flood.py option blocks).  GRASS
hands every option to the script as a plain string, the empty string when the
user supplied no value; `out_vx`/`out_vy`/`out_qx`/`out_qy` are commented out
in the source and therefore absent here, as they are from `options`. -/
structure Opts where
  start_time : String
  end_time : String
  sim_duration : String
  record_step : String
  in_z : String
  in_n : String
  in_h : String
  in_rain : String
  in_inf : String
  in_eff_por : String
  in_cap_pressure : String
  in_hyd_conduct : String
  in_q : String
  in_bctype : String
  in_bcval : String
  out_h : String
  out_wse : String
  hmin : String
  slmax : String
  cfl : String
  theta : String
  vrouting : String
  dtmax : String
deriving DecidableEq

/-- The `input_times` dictionary of `main` (line 264): every field starts as
`None` and `read_input_time` fills it in. -/
structure InputTimes where
  start : Option Int
  end_ : Option Int
  duration : Option Int
  rec_step : Option Int
deriving DecidableEq

/-- The `input_map_names` dictionary of `main` (lines 265-268). -/
structure InputMaps where
  in_z : Option String
  in_n : Option String
  in_h : Option String
  in_rain : Option String
  in_inf : Option String
  in_eff_por : Option String
  in_cap_pressure : Option String
  in_hyd_conduct : Option String
  in_q : Option String
  in_bcval : Option String
  in_bctype : Option String
deriving DecidableEq

/-- The `output_map_names` dictionary of `main` (lines 269-270).  The last
four keys have no corresponding declared option, so they can never be set. -/
structure OutputMaps where
  out_h : Option String
  out_wse : Option String
  out_vx : Option String
  out_vy : Option String
  out_qx : Option String
  out_qy : Option String
deriving DecidableEq

/-- The `sim_param` dictionary of `main` (line 263).  Python stores floats;
the claims proved here never depend on rounding, so values are rationals. -/
structure SimParam where
  hmin : ℚ
  cfl : ℚ
  theta : ℚ
  vrouting : ℚ
  dtmax : ℚ
  slmax : ℚ
deriving DecidableEq

/-- Built-in defaults of `sim_param` (line 263):
`{hmin: 0.005, cfl: 0.7, theta: 0.9, vrouting: 0.1, dtmax: 5., slmax: .5}`. -/
def defaultSimParam : SimParam := ⟨5 / 1000, 7 / 10, 9 / 10, 1 / 10, 5, 5 / 10⟩

/-- `comb_err_msg` (lines 331-332) after `.format`. -/
def comb_err_msg : String :=
  "accepted combinations:sim_duration alone, start_time and sim_duration, start_time and end_time"

/-- Lines 349-353: parse `end_time` when truthy, else leave the dict entry
`None`; a `ValueError` from `strptime` is fatal. -/
def parseEnd (o : Opts) : Except String (Option Int) :=
  if truthy o.end_time then
    match strptime o.end_time with
    | some t => .ok (some t)
    | none => .error ("end_time: format should be yyyy-mm-dd HH:MM")
  else .ok none

/-- Lines 355-362: parse `start_time` when truthy, else default to
`datetime.min`. -/
def parseStart (o : Opts) : Except String Int :=
  if truthy o.start_time then
    match strptime o.start_time with
    | some t => .ok t
    | none => .error ("start_time: format should be yyyy-mm-dd HH:MM")
  else .ok datetimeMin

/-- Lines 364-370: parse `sim_duration` when truthy, else derive it as
`end - start`.  In the else branch the source reads the `end` entry of `input_times`,
which is `None` unless `end_time` was parsed; the (unreachable after the
combination check) `None - start` would raise `TypeError`. -/
def parseDur (o : Opts) (e : Option Int) (st : Int) : Except String Int :=
  if truthy o.sim_duration then
    match strToTimedelta o.sim_duration with
    | some d => .ok d
    | none => .error ("sim_duration: format should be HH:MM:SS")
  else
    match e with
    | some t => .ok (t - st)
    | none => .error ("TypeError: unsupported operand type for -")

/-- Lines 340-341: `sim_duration` alone. -/
def b_dur (o : Opts) : Bool :=
  truthy o.sim_duration && !truthy o.start_time && !truthy o.end_time

/-- Lines 342-343: `start_time` and `sim_duration`. -/
def b_start_dur (o : Opts) : Bool :=
  truthy o.start_time && truthy o.sim_duration && !truthy o.end_time

/-- Lines 344-345: `start_time` and `end_time`. -/
def b_start_end (o : Opts) : Bool :=
  truthy o.start_time && truthy o.end_time && !truthy o.sim_duration

/-- `read_input_time` (lines 324-370): validate `record_step`, check the
accepted present/absent combination of `start_time`/`end_time`/`sim_duration`
(Python truthiness: the empty string is absent), then parse end, start and
duration in source order.  `msgr.fatal` never returns and is modelled as
`Except.error` with the formatted message. -/
def readInputTime (o : Opts) : Except String InputTimes :=
  match strToTimedelta o.record_step with
  | none => .error ("record_step: format should be HH:MM:SS")
  | some rstep =>
    if !(b_dur o || b_start_dur o || b_start_end o) then .error comb_err_msg
    else
      match parseEnd o with
      | .error m => .error m
      | .ok e =>
        match parseStart o with
        | .error m => .error m
        | .ok st =>
          match parseDur o e st with
          | .error m => .error m
          | .ok du => .ok ⟨some st, e, some du, some rstep⟩

/-- Loop body of `read_maps_names` for input keys (lines 375-377): a truthy
value is stored, otherwise the entry stays `None`. -/
def setIf (v : String) : Option String := if truthy v then some v else none

/-- The input dictionary after the option loop of `read_maps_names`. -/
def buildInputMaps (o : Opts) : InputMaps :=
  ⟨setIf o.in_z, setIf o.in_n, setIf o.in_h, setIf o.in_rain, setIf o.in_inf,
   setIf o.in_eff_por, setIf o.in_cap_pressure, setIf o.in_hyd_conduct,
   setIf o.in_q, setIf o.in_bcval, setIf o.in_bctype⟩

/-- Loop body of `read_maps_names` for output keys (lines 378-382):
`file_exist(gis.Igis.format_id(v)) and not grass.overwrite()` is fatal;
`fmt` is `format_id`, `ec` is `file_exist`, `ovr` is `grass.overwrite()`. -/
def checkOutput (fmt : String → String) (ec : String → Bool) (ovr : Bool)
    (v : String) : Except String (Option String) :=
  if truthy v then
    if ec (fmt v) && !ovr then
      .error ("File " ++ v ++ " exists and will not be overwritten")
    else .ok (some v)
  else .ok none

/-- `input_map_names.values()` in dict-literal order (lines 265-268). -/
def inputMapValues (im : InputMaps) : List (Option String) :=
  [im.in_z, im.in_n, im.in_h, im.in_rain, im.in_inf, im.in_eff_por,
   im.in_cap_pressure, im.in_hyd_conduct, im.in_q, im.in_bcval, im.in_bctype]

/-- `ga_list` (line 384): the Green-Ampt role KEY names. -/
def ga_list : List String := [("in_eff_por"), ("in_cap_pressure"), ("in_hyd_conduct")]

/-- Lines 383-394 of `read_maps_names`, exactly as written: the loop
`for i in ga_list: ga_bool = (i in input_map_names.values())` overwrites
`ga_bool` at each iteration (a fold), and both membership tests compare the
role KEY strings (and the nonexistent key `in_f`) against the dict VALUES,
i.e. against the user-supplied map names. -/
def gaCheck (im : InputMaps) : Except String Unit :=
  let vals := inputMapValues im
  let ga_bool := ga_list.foldl (fun _ i => vals.contains (some i)) false
  if vals.contains (some ("in_f")) && ga_bool then
    .error ("Infiltration model incompatible with user-defined rate")
  else if ga_bool && !(ga_list.all (fun i => vals.contains (some i))) then
    .error ("[in_eff_por, in_cap_pressure, in_hyd_conduct] are mutualy inclusive")
  else .ok ()

/-- `read_maps_names` (lines 372-394): populate the input and output name
dictionaries from the options (Python dict iteration order is arbitrary and
the input assignments are independent; the two declared output keys are
checked in declaration order), then run the Green-Ampt coherence checks. -/
def readMapsNames (fmt : String → String) (ec : String → Bool) (ovr : Bool)
    (o : Opts) : Except String (InputMaps × OutputMaps) :=
  let im := buildInputMaps o
  match checkOutput fmt ec ovr o.out_h with
  | .error m => .error m
  | .ok oh =>
    match checkOutput fmt ec ovr o.out_wse with
    | .error m => .error m
    | .ok ow =>
      match gaCheck im with
      | .error m => .error m
      | .ok _ => .ok (im, ⟨oh, ow, none, none, none, none⟩)

/-- One key of `read_sim_param` (lines 399-401): a truthy value is converted
with `float` (the conversion `pf`, an external builtin passed explicitly; an
unparseable value raises an uncaught `ValueError`), otherwise the built-in
default is kept. -/
def paramOf (pf : String → Option ℚ) (v : String) (dflt : ℚ) : Except String ℚ :=
  if truthy v then
    match pf v with
    | some x => .ok x
    | none => .error ("ValueError: could not convert string to float")
  else .ok dflt

/-- `read_sim_param` (lines 396-401): override each default with the parsed
float of a truthy option value. -/
def readSimParam (pf : String → Option ℚ) (o : Opts) : Except String SimParam :=
  match paramOf pf o.hmin defaultSimParam.hmin with
  | .error m => .error m
  | .ok vhmin =>
    match paramOf pf o.cfl defaultSimParam.cfl with
    | .error m => .error m
    | .ok vcfl =>
      match paramOf pf o.theta defaultSimParam.theta with
      | .error m => .error m
      | .ok vtheta =>
        match paramOf pf o.vrouting defaultSimParam.vrouting with
        | .error m => .error m
        | .ok vvrouting =>
          match paramOf pf o.dtmax defaultSimParam.dtmax with
          | .error m => .error m
          | .ok vdtmax =>
            match paramOf pf o.slmax defaultSimParam.slmax with
            | .error m => .error m
            | .ok vslmax => .ok ⟨vhmin, vcfl, vtheta, vvrouting, vdtmax, vslmax⟩

/-- All-empty options: the GRASS parser default for a run with no values. -/
def emptyOpts : Opts :=
  ⟨"", "", "", "", "", "", "", "", "", "", "", "", "", "", "", "", "", "", "", "", "", "", ""⟩

/-- Modelled from the spec: step 3 of the SimulationClock running loop
(spec 4.5); `simulation.SuperficialFlowSimulation` is imported by the source
but its module is not part of the visible sources.
`dt := min(dt_candidate, dtmax, next_record_boundary - current_time,
time_to_next_series_change)`. -/
def clampDt (dtCandidate dtmaxI gapB gapS : Int) : Int :=
  min (min dtCandidate dtmaxI) (min gapB gapS)

/-- Modelled from the spec: the SimulationClock running loop of spec 4.5
within one record interval, for the missing `simulation` module.  Time is
integral (`datetime` arithmetic is exact integer microseconds).  `dtC` is the
external solver stability query per step (spec 6), `dtm` the `dtmax` bound,
`sg` the gap to the next series change at a given instant, `b` the next
record boundary.  Each iteration clamps `dt`, aborts with a fatal
`TimestepError` when the clamp is non-positive, otherwise advances
`current_time` by `dt`.  `fuel` bounds the iteration count; errors carry the
step count at failure, success returns the final instant and step count. -/
def runToBoundary (dtC : Nat → Int) (dtm : Int) (sg : Int → Int) (b : Int) :
    Nat → Int → Nat → Except (String × Nat) (Int × Nat)
  | 0, cur, steps =>
    if cur < b then .error ("fuel exhausted", steps) else .ok (cur, steps)
  | fuel + 1, cur, steps =>
    if cur < b then
      if clampDt (dtC steps) dtm (b - cur) (sg cur) ≤ 0 then
        .error ("TimestepError: stalled simulation", steps)
      else
        runToBoundary dtC dtm sg b fuel
          (cur + clampDt (dtC steps) dtm (b - cur) (sg cur)) (steps + 1)
    else .ok (cur, steps)

/-- Modelled from the spec: number of record boundaries of spec 4.4,
`start, start+record_step, ...` up to and including the first boundary
`>= end` (so `ceil((end-start)/record_step) + 1` of them). -/
def nBoundaries (startT recStep endT : Int) : Nat :=
  if recStep ≤ 0 then 1
  else (((endT - startT) + recStep - 1) / recStep).toNat + 1

/-- Modelled from the spec: first conflicting boundary index `< n` under the
conflict predicate `p`, scanning as the OutputScheduler of spec 4.4 does. -/
def findConflictIdx (p : Nat → Bool) : Nat → Option Nat
  | 0 => none
  | n + 1 =>
    match findConflictIdx p n with
    | some i => some i
    | none => if p n then some n else none

/-- Modelled from the spec: first conflicting output identifier over all
requested output base names and all boundary ordinals below `n`;
`nameAt base i` is the catalog collaborator naming scheme of spec 6. -/
def findConflict (ec : String → Bool) (ovr : Bool) (nameAt : String → Nat → String)
    (n : Nat) : List String → Option String
  | [] => none
  | b :: rest =>
    match findConflictIdx (fun i => ec (nameAt b i) && !ovr) n with
    | some i => some (nameAt b i)
    | none => findConflict ec ovr nameAt n rest

/-- Modelled from the spec: the OutputScheduler pre-run check of spec 4.4,
run before the clock starts — `OutputExistsError` naming the conflicting
identifier when a target of any requested role at any boundary exists and
overwrite is not permitted. -/
def precheck (ec : String → Bool) (ovr : Bool) (nameAt : String → Nat → String)
    (bases : List String) (n : Nat) : Except String Unit :=
  match findConflict ec ovr nameAt n bases with
  | some ident => .error ("OutputExistsError: " ++ ident)
  | none => .ok ()

/-- Modelled from the spec: the record boundaries strictly after `start`
visited by the clock (spec 4.5: the first boundary is `start + record_step`,
a boundary at `start` itself is skipped). -/
def recordBoundaries (startT recStep endT : Int) : List Int :=
  (List.range (nBoundaries startT recStep endT - 1)).map
    (fun i => startT + recStep * ((i : Int) + 1))

/-- Modelled from the spec: the full running phase — one `runToBoundary`
per record interval, threading `current_time` and the step count. -/
def runAll (dtC : Nat → Int) (dtm : Int) (sg : Int → Int) :
    List Int → Int → Nat → Except (String × Nat) Nat
  | [], _, steps => .ok steps
  | b :: rest, cur, steps =>
    match runToBoundary dtC dtm sg b ((b - cur).toNat) cur steps with
    | .error e => .error e
    | .ok (cur2, steps2) => runAll dtC dtm sg rest cur2 steps2

/-- The requested output base identifiers, in dict order. -/
def outputBases (om : OutputMaps) : List String :=
  ([om.out_h, om.out_wse, om.out_vx, om.out_vy, om.out_qx, om.out_qy]).filterMap (fun x => x)

/-- Modelled from the spec: the resolved end instant (spec 3:
`end = start + duration` always holds once resolved; the front end leaves
`end` unset in duration mode and the missing simulation module completes
it). -/
def resolvedEnd (t : InputTimes) : Int :=
  match t.end_ with
  | some e => e
  | none => t.start.getD 0 + t.duration.getD 0

/-- Modelled from the spec: `SuperficialFlowSimulation.run()` — the
OutputScheduler pre-run overwrite check of spec 4.4 first (before any solver
step), then the clock loop.  Errors carry the number of solver steps already
performed when they occur. -/
def simRun (ec : String → Bool) (ovr : Bool) (nameAt : String → Nat → String)
    (bases : List String) (dtC : Nat → Int) (dtm : Int) (sg : Int → Int)
    (startT recStep endT : Int) : Except (String × Nat) Nat :=
  match precheck ec ovr nameAt bases (nBoundaries startT recStep endT) with
  | .error m => .error (m, 0)
  | .ok _ => runAll dtC dtm sg (recordBoundaries startT recStep endT) startT 0

/-- `main` (lines 272-288): the three readers run, in source order, strictly
before `sim.run()`; any fatal error in them therefore precedes the first
solver step.  The simulation itself is modelled from the spec (`simRun`). -/
def mainPipeline (fmt : String → String) (ec : String → Bool) (ovr : Bool)
    (nameAt : String → Nat → String) (pf : String → Option ℚ)
    (dtC : Nat → Int) (dtm : Int) (sg : Int → Int) (o : Opts) :
    Except (String × Nat) Nat :=
  match readInputTime o with
  | .error m => .error (m, 0)
  | .ok times =>
    match readMapsNames fmt ec ovr o with
    | .error m => .error (m, 0)
    | .ok im_om =>
      match readSimParam pf o with
      | .error m => .error (m, 0)
      | .ok _ =>
        simRun ec ovr nameAt (outputBases im_om.2) dtC dtm sg
          (times.start.getD 0) (times.rec_step.getD 0) (resolvedEnd times)

/-- Every duration produced by `str_to_timedelta` is nonnegative: the checks
leave `hours >= 0` and `minutes, seconds` in `[0, 59]`. -/
theorem strToTimedelta_nonneg_aux (s : String) (d : Int)
    (h : strToTimedelta s = some d) : 0 ≤ d := by
  simp only [strToTimedelta] at h
  split at h
  · split at h
    · split at h
      · exact absurd h (by simp)
      · split at h
        · exact absurd h (by simp)
        · rename_i hhours hrange
          simp only [Option.some_inj] at h
          push_neg at hrange
          omega
    · exact absurd h (by simp)
  · exact absurd h (by simp)

/-- Success shape of `read_input_time`: on success the record step is the
parsed `record_step`, `start` is always set, and `end` is either unset or set
with `duration = end - start`. -/
theorem readInputTime_ok_cases (o : Opts) (res : InputTimes)
    (hok : readInputTime o = .ok res) :
    ∃ r st, strToTimedelta o.record_step = some r ∧ res.rec_step = some r ∧
      res.start = some st ∧
      (res.end_ = none ∨ ∃ e, res.end_ = some e ∧ res.duration = some (e - st)) := by
  simp only [readInputTime] at hok
  cases hrec : strToTimedelta o.record_step with
  | none => rw [hrec] at hok; exact absurd hok (by simp)
  | some r =>
    rw [hrec] at hok
    simp only at hok
    split at hok
    · exact absurd hok (by simp)
    · rename_i hguard
      split at hok
      · exact absurd hok (by simp)
      · rename_i e hend
        split at hok
        · exact absurd hok (by simp)
        · rename_i st hstart
          split at hok
          · exact absurd hok (by simp)
          · rename_i du hdur
            simp only [Except.ok.injEq] at hok
            subst hok
            refine ⟨r, st, rfl, rfl, rfl, ?_⟩
            cases e with
            | none => exact Or.inl rfl
            | some e0 =>
              refine Or.inr ⟨e0, rfl, ?_⟩
              -- end_time is truthy here, so the accepted combination is
              -- start+end and sim_duration is falsy: duration = end - start
              simp only [parseEnd] at hend
              split at hend
              · rename_i het
                have hg : (b_dur o || b_start_dur o || b_start_end o) = true := by
                  revert hguard
                  cases b_dur o || b_start_dur o || b_start_end o <;> simp
                have hsd : truthy o.sim_duration = false := by
                  cases hsd0 : truthy o.sim_duration
                  · rfl
                  · exfalso
                    simp [b_dur, b_start_dur, b_start_end, het, hsd0] at hg
                simp only [parseDur, hsd, Bool.false_eq_true, if_false] at hdur
                simp only [Except.ok.injEq] at hdur
                rw [← hdur]
              · exact absurd hend (by simp)

/-- Range reduction for the final checks of `str_to_timedelta`. -/
theorem timedelta_checks_isSome (hh mm ss : Int) :
    (Option.isSome
      (if hh < 0 then none
       else if ¬(0 ≤ mm ∧ mm ≤ 59) ∨ ¬(0 ≤ ss ∧ ss ≤ 59) then none
       else some (hh * 3600 + mm * 60 + ss)) = true) ↔
    (0 ≤ hh ∧ 0 ≤ mm ∧ mm ≤ 59 ∧ 0 ≤ ss ∧ ss ≤ 59) := by
  split_ifs with h1 h2 <;> simp <;> omega

/-- C10: for every input string on which `str_to_timedelta` returns rather
than raising, the returned duration is nonnegative: accepted hours are
nonnegative and accepted minutes and seconds lie in `[0, 59]`. -/
theorem timedelta_nonneg (s : String) (d : Int)
    (h : strToTimedelta s = some d) : 0 ≤ d :=
  strToTimedelta_nonneg_aux s d h

theorem timedelta_nonneg_witness :
    strToTimedelta ("01:02:03") = some 3723 ∧ (0 : Int) ≤ 3723 :=
  ⟨by rfl, timedelta_nonneg ("01:02:03") 3723 (by rfl)⟩

/-- C3 counterexample: `"00:00:00:junk"` does not split into exactly three
numeric fields — it splits into four, the last not numeric — yet
`str_to_timedelta` succeeds (the source only ever reads `data[0]`, `data[1]`,
`data[2]`), returning 0 seconds.  This refutes the claimed
"fails if and only if" characterisation. -/
theorem strToTimedelta_extra_fields_cex :
    (splitOnChar ':' (String.data ("00:00:00:junk"))).length = 4 ∧
    strToTimedelta ("00:00:00:junk") = some 0 :=
  ⟨by rfl, by rfl⟩

/-- C3 (amended): `str_to_timedelta` fails if and only if the string yields
fewer than three colon-separated fields, or one of the FIRST three fields is
not a valid integer, or hours < 0, or minutes/seconds lie outside `[0, 59]`;
fields beyond the third are ignored.  Hours are uncapped: `25:00:00` is
accepted while `00:60:00` and `00:00:-1` are rejected. -/
theorem strToTimedelta_domain :
    (∀ s : String,
      Option.isSome (strToTimedelta s) = true ↔
        (3 ≤ (splitOnChar ':' s.data).length ∧
         ∃ hh mm ss : Int,
           pyIntChars ((splitOnChar ':' s.data).getD 0 []) = some hh ∧
           pyIntChars ((splitOnChar ':' s.data).getD 1 []) = some mm ∧
           pyIntChars ((splitOnChar ':' s.data).getD 2 []) = some ss ∧
           0 ≤ hh ∧ 0 ≤ mm ∧ mm ≤ 59 ∧ 0 ≤ ss ∧ ss ≤ 59)) ∧
    strToTimedelta ("25:00:00") = some 90000 ∧
    strToTimedelta ("00:60:00") = none ∧
    strToTimedelta ("00:00:-1") = none := by
  refine ⟨?_, by rfl, by rfl, by rfl⟩
  intro s
  unfold strToTimedelta
  rcases hl : splitOnChar ':' s.data with _ | ⟨a, _ | ⟨b, _ | ⟨c, rest⟩⟩⟩
  · simp
  · simp
  · simp
  · simp only [List.getElem?_cons_zero, List.getElem?_cons_succ,
      List.getD_cons_zero, List.getD_cons_succ, List.length_cons]
    cases pa : pyIntChars a with
    | none => simp
    | some hh =>
      cases pb : pyIntChars b with
      | none => simp
      | some mm =>
        cases pc : pyIntChars c with
        | none => simp
        | some ss =>
          simp only
          rw [timedelta_checks_isSome]
          constructor
          · intro hr
            exact ⟨by omega, hh, mm, ss, rfl, rfl, rfl, hr.1, hr.2.1, hr.2.2.1,
              hr.2.2.2.1, hr.2.2.2.2⟩
          · rintro ⟨hlen, hh2, mm2, ss2, h1, h2, h3, h4, h5, h6, h7, h8⟩
            simp only [Option.some.injEq] at h1 h2 h3
            subst h1; subst h2; subst h3
            exact ⟨h4, h5, h6, h7, h8⟩

/-- C1 (code bug): the Green-Ampt coherence check of `read_maps_names`
compares the role KEY names (and the nonexistent key `in_f`) against the
dict VALUES (the user-supplied map names), and the loop overwrites `ga_bool`
on every iteration.  Consequently a strict subset of the Green-Ampt group
(`in_eff_por` and `in_cap_pressure` without `in_hyd_conduct`) is accepted,
and so is the full group together with `in_inf` (`infiltration_rate`), both
contradicting the comments and fatal-error messages of lines 383-394. -/
theorem greenAmpt_code_eval :
    readMapsNames (fun s => s) (fun _ => false) false
        ⟨"", "", "", "", "dem", "fric", "", "", "", "pormap", "capmap", "",
         "", "", "", "", "", "", "", "", "", "", ""⟩
      = .ok (⟨some ("dem"), some ("fric"), none, none, none, some ("pormap"),
              some ("capmap"), none, none, none, none⟩,
             ⟨none, none, none, none, none, none⟩) ∧
    readMapsNames (fun s => s) (fun _ => false) false
        ⟨"", "", "", "", "dem", "fric", "", "", "infmap", "pormap", "capmap",
         "hydmap", "", "", "", "", "", "", "", "", "", "", ""⟩
      = .ok (⟨some ("dem"), some ("fric"), none, none, some ("infmap"),
              some ("pormap"), some ("capmap"), some ("hydmap"), none, none, none⟩,
             ⟨none, none, none, none, none, none⟩) :=
  ⟨by rfl, by rfl⟩

/-- C5: when `start_time` and `end_time` are both given and `sim_duration` is
absent, the resolved duration is `end - start`, with no sign validation —
a negative difference is stored as computed. -/
theorem start_end_duration (o : Opts) (r s e : Int)
    (hst : truthy o.start_time = true)
    (het : truthy o.end_time = true)
    (hsd : truthy o.sim_duration = false)
    (hr : strToTimedelta o.record_step = some r)
    (hs : strptime o.start_time = some s)
    (he : strptime o.end_time = some e) :
    readInputTime o = .ok ⟨some s, some e, some (e - s), some r⟩ := by
  simp [readInputTime, hr, b_dur, b_start_dur, b_start_end, hst, het, hsd,
    parseEnd, parseStart, parseDur, hs, he]

theorem start_end_duration_witness :
    readInputTime
        ⟨"2020-01-02 00:00", "2020-01-01 00:00", "", "00:10:00", "", "", "",
         "", "", "", "", "", "", "", "", "", "", "", "", "", "", "", ""⟩
      = .ok ⟨some 63713520000, some 63713433600, some (-86400), some 600⟩ :=
  start_end_duration _ 600 63713520000 63713433600 (by rfl) (by rfl) (by rfl)
    (by rfl) (by rfl) (by rfl)

/-- C6 counterexample: the claim says a zero `record_step` is rejected as a
fatal configuration error before the simulation starts; in the code,
`read_input_time` only checks that `record_step` parses as `HH:MM:SS`, so
`00:00:00` (a zero duration) is accepted and stored. -/
theorem zero_record_step_cex :
    strToTimedelta ("00:00:00") = some 0 ∧
    readInputTime
        ⟨"", "", "01:00:00", "00:00:00", "", "", "", "", "", "", "", "", "",
         "", "", "", "", "", "", "", "", "", ""⟩
      = .ok ⟨some datetimeMin, none, some 3600, some 0⟩ :=
  ⟨by rfl, by rfl⟩

/-- C6 (amended): before the simulation starts, `record_step` must parse as
a valid `HH:MM:SS` duration — an unparseable value is a fatal error, checked
first of all the time checks — and any accepted value is the parsed,
necessarily nonnegative, duration.  No strict-positivity check is performed:
zero is accepted. -/
theorem record_step_amended :
    (∀ o : Opts, strToTimedelta o.record_step = none →
        readInputTime o = .error ("record_step: format should be HH:MM:SS")) ∧
    (∀ (o : Opts) (res : InputTimes) (r : Int), readInputTime o = .ok res →
        res.rec_step = some r → strToTimedelta o.record_step = some r ∧ 0 ≤ r) := by
  constructor
  · intro o h
    simp [readInputTime, h]
  · intro o res r hok hrs
    obtain ⟨r0, st, hrec, hrs0, _, _⟩ := readInputTime_ok_cases o res hok
    rw [hrs0] at hrs
    simp only [Option.some.injEq] at hrs
    subst hrs
    exact ⟨hrec, strToTimedelta_nonneg_aux _ _ hrec⟩

theorem record_step_amended_witness :
    readInputTime emptyOpts = .error ("record_step: format should be HH:MM:SS") :=
  record_step_amended.1 emptyOpts (by rfl)

/-- Options giving only a simulation duration (one hour, ten-minute record
step). -/
def oDurOnly : Opts :=
  ⟨"", "", "01:00:00", "00:10:00", "", "", "", "", "", "", "", "", "", "",
   "", "", "", "", "", "", "", "", ""⟩

/-- C4 counterexample: with only `sim_duration` given (and parsing
succeeding), `read_input_time` sets `start` to the minimum representable
instant but leaves `end` unset (`None`) — it is NOT `start + duration` as
the claim states, so "end = start + duration holds in every successfully
resolved time window" fails on this input. -/
theorem duration_only_end_unset_cex :
    readInputTime oDurOnly = .ok ⟨some datetimeMin, none, some 3600, some 600⟩ ∧
    (⟨some datetimeMin, none, some 3600, some 600⟩ : InputTimes).end_
      ≠ some (datetimeMin + 3600) :=
  ⟨by rfl, by simp⟩

/-- C4 (amended): when only `sim_duration` is given and parsing succeeds,
the resolver sets `start` to the minimum representable instant, `duration`
to the parsed value, and leaves `end` unset (it is completed downstream);
and whenever the resolver does set `end`, `end = start + duration` holds
(there, `duration` is derived as `end - start`). -/
theorem time_window_amended :
    (∀ (o : Opts) (r d : Int), truthy o.start_time = false →
        truthy o.end_time = false → truthy o.sim_duration = true →
        strToTimedelta o.record_step = some r →
        strToTimedelta o.sim_duration = some d →
        readInputTime o = .ok ⟨some datetimeMin, none, some d, some r⟩) ∧
    (∀ (o : Opts) (res : InputTimes) (e st du : Int), readInputTime o = .ok res →
        res.end_ = some e → res.start = some st → res.duration = some du →
        e = st + du) := by
  constructor
  · intro o r d hst het hsd hr hd
    simp [readInputTime, hr, b_dur, b_start_dur, b_start_end, hst, het, hsd,
      parseEnd, parseStart, parseDur, hd]
  · intro o res e st du hok he hs hd
    obtain ⟨r0, st0, hrec, hrs, hst0, hcase⟩ := readInputTime_ok_cases o res hok
    rcases hcase with hnone | ⟨e0, he0, hdu0⟩
    · rw [hnone] at he
      exact absurd he (by simp)
    · rw [he0] at he
      rw [hst0] at hs
      rw [hdu0] at hd
      simp only [Option.some.injEq] at he hs hd
      omega

theorem time_window_amended_witness :
    readInputTime oDurOnly = .ok ⟨some datetimeMin, none, some 3600, some 600⟩ :=
  time_window_amended.1 oDurOnly 600 3600 (by rfl) (by rfl) (by rfl) (by rfl)
    (by rfl)

/-- The acceptance condition in the words of the claim: exactly the combinations
`sim_duration` alone, `start_time` with `sim_duration`, `start_time` with
`end_time` (a present option is a truthy, i.e. nonempty, string). -/
def specAcceptedCombo (o : Opts) : Prop :=
  (truthy o.sim_duration = true ∧ truthy o.start_time = false ∧ truthy o.end_time = false) ∨
  (truthy o.start_time = true ∧ truthy o.sim_duration = true ∧ truthy o.end_time = false) ∨
  (truthy o.start_time = true ∧ truthy o.end_time = true ∧ truthy o.sim_duration = false)

instance (o : Opts) : Decidable (specAcceptedCombo o) := by
  unfold specAcceptedCombo
  infer_instance

/-- C2: provided every supplied time string is well formed, time-window
resolution succeeds exactly for the combinations `sim_duration` alone,
`start_time`+`sim_duration` and `start_time`+`end_time`; every other
present/absent combination of the three options is rejected with the fatal
combination error. -/
theorem time_combos (o : Opts)
    (hr : Option.isSome (strToTimedelta o.record_step) = true)
    (hs : truthy o.start_time = true → Option.isSome (strptime o.start_time) = true)
    (he : truthy o.end_time = true → Option.isSome (strptime o.end_time) = true)
    (hd : truthy o.sim_duration = true →
      Option.isSome (strToTimedelta o.sim_duration) = true) :
    ((∃ res, readInputTime o = .ok res) ↔ specAcceptedCombo o) ∧
    (¬ specAcceptedCombo o → readInputTime o = .error comb_err_msg) := by
  obtain ⟨r, hr2⟩ := Option.isSome_iff_exists.mp hr
  cases hst : truthy o.start_time with
  | false =>
    cases het : truthy o.end_time with
    | false =>
      cases hsd : truthy o.sim_duration with
      | false =>
        -- nothing supplied: rejected
        constructor
        · constructor
          · rintro ⟨res, hres⟩
            simp [readInputTime, hr2, b_dur, b_start_dur, b_start_end,
              hst, het, hsd] at hres
          · intro hacc
            simp [specAcceptedCombo, hst, het, hsd] at hacc
        · intro _
          simp [readInputTime, hr2, b_dur, b_start_dur, b_start_end, hst, het, hsd]
      | true =>
        -- sim_duration alone: accepted
        obtain ⟨d, hd2⟩ := Option.isSome_iff_exists.mp (hd hsd)
        constructor
        · constructor
          · intro _
            simp [specAcceptedCombo, hst, het, hsd]
          · intro _
            exact ⟨⟨some datetimeMin, none, some d, some r⟩,
              by simp [readInputTime, hr2, b_dur, b_start_dur, b_start_end,
                hst, het, hsd, parseEnd, parseStart, parseDur, hd2]⟩
        · intro hacc
          exact absurd (by simp [specAcceptedCombo, hst, het, hsd]) hacc
    | true =>
      cases hsd : truthy o.sim_duration with
      | false =>
        -- end_time alone: rejected
        constructor
        · constructor
          · rintro ⟨res, hres⟩
            simp [readInputTime, hr2, b_dur, b_start_dur, b_start_end,
              hst, het, hsd] at hres
          · intro hacc
            simp [specAcceptedCombo, hst, het, hsd] at hacc
        · intro _
          simp [readInputTime, hr2, b_dur, b_start_dur, b_start_end, hst, het, hsd]
      | true =>
        -- end_time with sim_duration: rejected
        constructor
        · constructor
          · rintro ⟨res, hres⟩
            simp [readInputTime, hr2, b_dur, b_start_dur, b_start_end,
              hst, het, hsd] at hres
          · intro hacc
            simp [specAcceptedCombo, hst, het, hsd] at hacc
        · intro _
          simp [readInputTime, hr2, b_dur, b_start_dur, b_start_end, hst, het, hsd]
  | true =>
    cases het : truthy o.end_time with
    | false =>
      cases hsd : truthy o.sim_duration with
      | false =>
        -- start_time alone: rejected
        constructor
        · constructor
          · rintro ⟨res, hres⟩
            simp [readInputTime, hr2, b_dur, b_start_dur, b_start_end,
              hst, het, hsd] at hres
          · intro hacc
            simp [specAcceptedCombo, hst, het, hsd] at hacc
        · intro _
          simp [readInputTime, hr2, b_dur, b_start_dur, b_start_end, hst, het, hsd]
      | true =>
        -- start_time with sim_duration: accepted
        obtain ⟨d, hd2⟩ := Option.isSome_iff_exists.mp (hd hsd)
        obtain ⟨s, hs2⟩ := Option.isSome_iff_exists.mp (hs hst)
        constructor
        · constructor
          · intro _
            simp [specAcceptedCombo, hst, het, hsd]
          · intro _
            exact ⟨⟨some s, none, some d, some r⟩,
              by simp [readInputTime, hr2, b_dur, b_start_dur, b_start_end,
                hst, het, hsd, parseEnd, parseStart, parseDur, hd2, hs2]⟩
        · intro hacc
          exact absurd (by simp [specAcceptedCombo, hst, het, hsd]) hacc
    | true =>
      cases hsd : truthy o.sim_duration with
      | false =>
        -- start_time with end_time: accepted
        obtain ⟨s, hs2⟩ := Option.isSome_iff_exists.mp (hs hst)
        obtain ⟨e, he2⟩ := Option.isSome_iff_exists.mp (he het)
        constructor
        · constructor
          · intro _
            simp [specAcceptedCombo, hst, het, hsd]
          · intro _
            exact ⟨⟨some s, some e, some (e - s), some r⟩,
              by simp [readInputTime, hr2, b_dur, b_start_dur, b_start_end,
                hst, het, hsd, parseEnd, parseStart, parseDur, hs2, he2]⟩
        · intro hacc
          exact absurd (by simp [specAcceptedCombo, hst, het, hsd]) hacc
      | true =>
        -- all three: rejected
        constructor
        · constructor
          · rintro ⟨res, hres⟩
            simp [readInputTime, hr2, b_dur, b_start_dur, b_start_end,
              hst, het, hsd] at hres
          · intro hacc
            simp [specAcceptedCombo, hst, het, hsd] at hacc
        · intro _
          simp [readInputTime, hr2, b_dur, b_start_dur, b_start_end, hst, het, hsd]

theorem time_combos_witness :
    ((∃ res, readInputTime oDurOnly = .ok res) ↔ specAcceptedCombo oDurOnly) ∧
    (¬ specAcceptedCombo oDurOnly → readInputTime oDurOnly = .error comb_err_msg) :=
  time_combos oDurOnly (by rfl) (by decide) (by decide) (by decide)

/-- A falsy (empty) parameter value keeps the built-in default and the
conversion function is never consulted. -/
theorem paramOf_falsy (pf : String → Option ℚ) (v : String) (dflt : ℚ)
    (h : truthy v = false) : paramOf pf v dflt = .ok dflt := by
  simp [paramOf, h]

/-- C9: an option supplied with an empty-string value is treated as absent.
For the simulation-parameter keys: if every value is empty the defaults are
returned whatever the float conversion does (none is attempted), and any
individual empty value leaves the default of that key in place.  For the map
roles: the result does not depend on the existence check or the overwrite
flag when the output values are empty (no check is performed), and an empty
value leaves the corresponding input or output role unset. -/
theorem empty_option_absent :
    (∀ (pf : String → Option ℚ) (o : Opts),
        truthy o.hmin = false → truthy o.cfl = false → truthy o.theta = false →
        truthy o.vrouting = false → truthy o.dtmax = false → truthy o.slmax = false →
        readSimParam pf o = .ok defaultSimParam) ∧
    (∀ (pf : String → Option ℚ) (o : Opts) (p : SimParam),
        readSimParam pf o = .ok p →
        ((truthy o.hmin = false → p.hmin = defaultSimParam.hmin) ∧
         (truthy o.cfl = false → p.cfl = defaultSimParam.cfl) ∧
         (truthy o.theta = false → p.theta = defaultSimParam.theta) ∧
         (truthy o.vrouting = false → p.vrouting = defaultSimParam.vrouting) ∧
         (truthy o.dtmax = false → p.dtmax = defaultSimParam.dtmax) ∧
         (truthy o.slmax = false → p.slmax = defaultSimParam.slmax))) ∧
    (∀ (fmt : String → String) (ec1 ec2 : String → Bool) (ovr1 ovr2 : Bool)
        (o : Opts), truthy o.out_h = false → truthy o.out_wse = false →
        readMapsNames fmt ec1 ovr1 o = readMapsNames fmt ec2 ovr2 o) ∧
    (∀ (fmt : String → String) (ec : String → Bool) (ovr : Bool) (o : Opts)
        (im : InputMaps) (om : OutputMaps),
        readMapsNames fmt ec ovr o = .ok (im, om) →
        ((truthy o.out_h = false → om.out_h = none) ∧
         (truthy o.out_wse = false → om.out_wse = none) ∧
         (truthy o.in_z = false → im.in_z = none) ∧
         (truthy o.in_n = false → im.in_n = none) ∧
         (truthy o.in_h = false → im.in_h = none) ∧
         (truthy o.in_rain = false → im.in_rain = none) ∧
         (truthy o.in_inf = false → im.in_inf = none) ∧
         (truthy o.in_eff_por = false → im.in_eff_por = none) ∧
         (truthy o.in_cap_pressure = false → im.in_cap_pressure = none) ∧
         (truthy o.in_hyd_conduct = false → im.in_hyd_conduct = none) ∧
         (truthy o.in_q = false → im.in_q = none) ∧
         (truthy o.in_bcval = false → im.in_bcval = none) ∧
         (truthy o.in_bctype = false → im.in_bctype = none))) := by
  refine ⟨?_, ?_, ?_, ?_⟩
  · intro pf o h1 h2 h3 h4 h5 h6
    simp [readSimParam, paramOf, h1, h2, h3, h4, h5, h6]
  · intro pf o p hok
    simp only [readSimParam] at hok
    split at hok
    · exact absurd hok (by simp)
    · rename_i vhmin eh
      split at hok
      · exact absurd hok (by simp)
      · rename_i vcfl ec
        split at hok
        · exact absurd hok (by simp)
        · rename_i vtheta eth
          split at hok
          · exact absurd hok (by simp)
          · rename_i vvrouting ev
            split at hok
            · exact absurd hok (by simp)
            · rename_i vdtmax ed
              split at hok
              · exact absurd hok (by simp)
              · rename_i vslmax es
                simp only [Except.ok.injEq] at hok
                subst hok
                refine ⟨fun ht => ?_, fun ht => ?_, fun ht => ?_, fun ht => ?_,
                  fun ht => ?_, fun ht => ?_⟩
                · rw [paramOf_falsy pf _ _ ht] at eh
                  simp only [Except.ok.injEq] at eh
                  rw [← eh]
                · rw [paramOf_falsy pf _ _ ht] at ec
                  simp only [Except.ok.injEq] at ec
                  rw [← ec]
                · rw [paramOf_falsy pf _ _ ht] at eth
                  simp only [Except.ok.injEq] at eth
                  rw [← eth]
                · rw [paramOf_falsy pf _ _ ht] at ev
                  simp only [Except.ok.injEq] at ev
                  rw [← ev]
                · rw [paramOf_falsy pf _ _ ht] at ed
                  simp only [Except.ok.injEq] at ed
                  rw [← ed]
                · rw [paramOf_falsy pf _ _ ht] at es
                  simp only [Except.ok.injEq] at es
                  rw [← es]
  · intro fmt ec1 ec2 ovr1 ovr2 o h1 h2
    simp [readMapsNames, checkOutput, h1, h2]
  · intro fmt ec ovr o im om hok
    simp only [readMapsNames] at hok
    split at hok
    · exact absurd hok (by simp)
    · rename_i oh eoh
      split at hok
      · exact absurd hok (by simp)
      · rename_i ow eow
        split at hok
        · exact absurd hok (by simp)
        · simp only [Except.ok.injEq, Prod.mk.injEq] at hok
          obtain ⟨him, hom⟩ := hok
          subst him
          subst hom
          refine ⟨fun ht => ?_, fun ht => ?_, fun ht => ?_, fun ht => ?_,
            fun ht => ?_, fun ht => ?_, fun ht => ?_, fun ht => ?_, fun ht => ?_,
            fun ht => ?_, fun ht => ?_, fun ht => ?_, fun ht => ?_⟩
          · simp only [checkOutput, ht, Bool.false_eq_true, if_false,
              Except.ok.injEq] at eoh
            rw [← eoh]
          · simp only [checkOutput, ht, Bool.false_eq_true, if_false,
              Except.ok.injEq] at eow
            rw [← eow]
          all_goals simp [buildInputMaps, setIf, ht]

theorem empty_option_absent_witness :
    readSimParam (fun _ => none) emptyOpts = .ok defaultSimParam ∧
    readMapsNames (fun s => s) (fun _ => true) false emptyOpts
      = readMapsNames (fun s => s) (fun _ => false) true emptyOpts :=
  ⟨empty_option_absent.1 (fun _ => none) emptyOpts rfl rfl rfl rfl rfl rfl,
   empty_option_absent.2.2.1 (fun s => s) (fun _ => true) (fun _ => false)
     false true emptyOpts rfl rfl⟩

/-- Whatever `findConflictIdx` returns satisfies the conflict predicate. -/
theorem findConflictIdx_some_spec (p : Nat → Bool) (n j : Nat)
    (h : findConflictIdx p n = some j) : p j = true := by
  induction n with
  | zero => simp [findConflictIdx] at h
  | succ n ih =>
    simp only [findConflictIdx] at h
    cases hfc : findConflictIdx p n with
    | some i =>
      rw [hfc] at h
      simp only [Option.some.injEq] at h
      subst h
      exact ih hfc
    | none =>
      rw [hfc] at h
      simp only at h
      split at h
      · rename_i hp
        simp only [Option.some.injEq] at h
        subst h
        exact hp
      · exact absurd h (by simp)

/-- If some index below `n` satisfies the conflict predicate,
`findConflictIdx` finds one. -/
theorem findConflictIdx_finds (p : Nat → Bool) (n i : Nat)
    (hi : i < n) (hp : p i = true) : ∃ j, findConflictIdx p n = some j := by
  induction n with
  | zero => omega
  | succ n ih =>
    simp only [findConflictIdx]
    cases hfc : findConflictIdx p n with
    | some k => exact ⟨k, rfl⟩
    | none =>
      by_cases hin : i < n
      · obtain ⟨j, hj⟩ := ih hin
        rw [hfc] at hj
        exact absurd hj (by simp)
      · have : i = n := by omega
        subst this
        simp only [hp, if_true]
        exact ⟨i, rfl⟩

/-- Whatever conflict `findConflict` reports is a genuinely existing,
non-overwritable identifier. -/
theorem findConflict_some_spec (ec : String → Bool) (ovr : Bool)
    (nameAt : String → Nat → String) (n : Nat) (bases : List String)
    (ident : String) (h : findConflict ec ovr nameAt n bases = some ident) :
    ec ident = true ∧ ovr = false := by
  induction bases with
  | nil => simp [findConflict] at h
  | cons b0 rest ih =>
    simp only [findConflict] at h
    cases hfc : findConflictIdx (fun i => ec (nameAt b0 i) && !ovr) n with
    | some i =>
      rw [hfc] at h
      simp only [Option.some.injEq] at h
      subst h
      have hp := findConflictIdx_some_spec _ n i hfc
      simp only [Bool.and_eq_true, Bool.not_eq_true'] at hp
      exact hp
    | none =>
      rw [hfc] at h
      simp only at h
      exact ih h

/-- If a requested base has an existing, non-overwritable identifier at some
boundary ordinal below `n`, `findConflict` reports a conflict. -/
theorem findConflict_finds (ec : String → Bool) (ovr : Bool)
    (nameAt : String → Nat → String) (n : Nat) (bases : List String)
    (b : String) (i : Nat) (hb : b ∈ bases) (hi : i < n)
    (hp : ec (nameAt b i) = true) (hovr : ovr = false) :
    ∃ ident, findConflict ec ovr nameAt n bases = some ident := by
  induction bases with
  | nil => simp at hb
  | cons b0 rest ih =>
    simp only [findConflict]
    cases hfc : findConflictIdx (fun k => ec (nameAt b0 k) && !ovr) n with
    | some k => exact ⟨nameAt b0 k, rfl⟩
    | none =>
      rcases List.mem_cons.mp hb with hb0 | hbr
      · subst hb0
        obtain ⟨j, hj⟩ := findConflictIdx_finds (fun k => ec (nameAt b k) && !ovr)
          n i hi (by simp [hp, hovr])
        rw [hfc] at hj
        exact absurd hj (by simp)
      · exact ih hbr

/-- C7: whenever the three readers succeed and some requested output role has
a target identifier at some future record boundary that already exists while
overwriting is not permitted, the whole run fails fatally with an error
naming a conflicting identifier and zero solver steps performed — the
failure happens in the pre-run check, never mid-run. -/
theorem overwrite_precheck (fmt : String → String) (ec : String → Bool)
    (nameAt : String → Nat → String) (pf : String → Option ℚ)
    (dtC : Nat → Int) (dtm : Int) (sg : Int → Int) (o : Opts)
    (times : InputTimes) (im : InputMaps) (om : OutputMaps) (sp : SimParam)
    (b : String) (i : Nat)
    (h1 : readInputTime o = .ok times)
    (h2 : readMapsNames fmt ec false o = .ok (im, om))
    (h3 : readSimParam pf o = .ok sp)
    (hb : b ∈ outputBases om)
    (hi : i < nBoundaries (times.start.getD 0) (times.rec_step.getD 0)
            (resolvedEnd times))
    (hex : ec (nameAt b i) = true) :
    ∃ ident, ec ident = true ∧
      mainPipeline fmt ec false nameAt pf dtC dtm sg o
        = .error ("OutputExistsError: " ++ ident, 0) := by
  obtain ⟨ident, hfc⟩ := findConflict_finds ec false nameAt
    (nBoundaries (times.start.getD 0) (times.rec_step.getD 0) (resolvedEnd times))
    (outputBases om) b i hb hi hex rfl
  have hspec := findConflict_some_spec ec false nameAt _ (outputBases om) ident hfc
  refine ⟨ident, hspec.1, ?_⟩
  simp only [mainPipeline, h1, h2, h3, simRun, precheck, hfc]

/-- Options requesting a water-depth output named `wd` over a two-hour run
with hourly records. -/
def o7 : Opts :=
  ⟨"", "", "02:00:00", "01:00:00", "", "", "", "", "", "", "", "", "", "",
   "", "wd", "", "", "", "", "", "", ""⟩

theorem overwrite_precheck_witness :
    ∃ ident, (fun s => s == ("wd_1")) ident = true ∧
      mainPipeline (fun s => s) (fun s => s == ("wd_1")) false
          (fun base i => base ++ ("_") ++ toString i) (fun _ => none)
          (fun _ => 1) 5 (fun _ => 100000) o7
        = .error ("OutputExistsError: " ++ ident, 0) :=
  overwrite_precheck (fun s => s) (fun s => s == ("wd_1"))
    (fun base i => base ++ ("_") ++ toString i) (fun _ => none)
    (fun _ => 1) 5 (fun _ => 100000) o7
    ⟨some 0, none, some 7200, some 3600⟩
    ⟨none, none, none, none, none, none, none, none, none, none, none⟩
    ⟨some ("wd"), none, none, none, none, none⟩ defaultSimParam
    ("wd") 1 (by rfl) (by rfl) (by rfl) (by decide) (by decide) (by decide)

/-- The clamp never exceeds the gap to the next record boundary. -/
theorem clampDt_le_gapB (a m gb gs : Int) : clampDt a m gb gs ≤ gb :=
  le_trans (min_le_right _ _) (min_le_left _ _)

/-- C8 (on the spec-modelled clock): within a record interval, given enough
fuel, the running loop either aborts with the fatal `TimestepError` (exactly
when some clamp result is non-positive — every executed sub-step uses a
strictly positive `dt`) or lands on the record boundary by exact equality:
the final value of `current_time` is the boundary itself, never beyond it. -/
theorem clock_no_overshoot (dtC : Nat → Int) (dtm : Int) (sg : Int → Int)
    (b : Int) (fuel : Nat) (cur : Int) (steps : Nat)
    (hcb : cur ≤ b) (hfuel : (b - cur).toNat ≤ fuel) :
    (∃ s, runToBoundary dtC dtm sg b fuel cur steps
        = .error ("TimestepError: stalled simulation", s)) ∨
    (∃ s, runToBoundary dtC dtm sg b fuel cur steps = .ok (b, s)) := by
  induction fuel generalizing cur steps with
  | zero =>
    have hcur : cur = b := by omega
    subst hcur
    right
    exact ⟨steps, by simp [runToBoundary]⟩
  | succ n ih =>
    by_cases hlt : cur < b
    · by_cases hdt : clampDt (dtC steps) dtm (b - cur) (sg cur) ≤ 0
      · left
        exact ⟨steps, by rw [runToBoundary, if_pos hlt, if_pos hdt]⟩
      · have hgap : clampDt (dtC steps) dtm (b - cur) (sg cur) ≤ b - cur :=
          clampDt_le_gapB _ _ _ _
        have hstep := ih (cur + clampDt (dtC steps) dtm (b - cur) (sg cur))
          (steps + 1) (by omega) (by omega)
        rcases hstep with ⟨s, hs⟩ | ⟨s, hs⟩
        · left
          exact ⟨s, by rw [runToBoundary, if_pos hlt, if_neg hdt]; exact hs⟩
        · right
          exact ⟨s, by rw [runToBoundary, if_pos hlt, if_neg hdt]; exact hs⟩
    · have hcur : cur = b := by omega
      subst hcur
      right
      exact ⟨steps, by rw [runToBoundary, if_neg hlt]⟩

theorem clock_no_overshoot_witness :
    runToBoundary (fun _ => 420) 10000 (fun _ => 100000) 600 600 0 0
      = .ok (600, 2) ∧
    ((∃ s, runToBoundary (fun _ => 420) 10000 (fun _ => 100000) 600 600 0 0
        = .error ("TimestepError: stalled simulation", s)) ∨
     (∃ s, runToBoundary (fun _ => 420) 10000 (fun _ => 100000) 600 600 0 0
        = .ok (600, s))) :=
  ⟨by rfl, clock_no_overshoot (fun _ => 420) 10000 (fun _ => 100000) 600 600 0 0
    (by decide) (by decide)⟩

end Itzi
